import Mathlib

/-!
Formal model of the `accelerator` event-processing program (`src/main.rs`).

Numeric model: the program computes with `f64`; here finite arithmetic is
modelled exactly over `ℚ` (ideal real-valued semantics).  The IEEE-754
special values (infinities, NaN) that arise on the zero-elapsed-time
division path are modelled separately by the `FP` type below.  All
counterexample inputs are chosen so that the corresponding `f64`
computation is exact, so each counterexample traces the real program.
-/

/-- Sensitivity curve, `factor` in `src/main.rs` lines 9-15: below `offset`
the baseline multiplier is returned unchanged; otherwise the linear ramp
`accel * (speed - offset) + 1` (the exact real value computed by
`f64::mul_add`) is clamped at `cap` and scaled by the multiplier. -/
def factor (sens_multiplier accel cap offset speed : ℚ) : ℚ :=
  if speed < offset then
    sens_multiplier
  else
    sens_multiplier * min (accel * (speed - offset) + 1) cap

/-- Rust `f64::round` (`src/main.rs` lines 104-105): round to the nearest
integer, with ties rounded away from zero. -/
def roundAway (q : ℚ) : ℤ :=
  if 0 ≤ q then ⌊q + 1 / 2⌋ else ⌈q - 1 / 2⌉

/-- Saturating conversion to the `i32` range, the behaviour of Rust's
float-to-integer `as i32` cast (`src/main.rs` lines 104-105) on an
already-integral value. -/
def i32sat (n : ℤ) : ℤ :=
  max (-(2 ^ 31)) (min (2 ^ 31 - 1) n)

theorem roundAway_sub_bounds (q : ℚ) :
    -(1 / 2) ≤ q - roundAway q ∧ q - roundAway q ≤ 1 / 2 := by
  unfold roundAway
  by_cases h : 0 ≤ q
  · rw [if_pos h]
    have h1 : (⌊q + 1 / 2⌋ : ℚ) ≤ q + 1 / 2 := Int.floor_le _
    have h2 : q + 1 / 2 < ⌊q + 1 / 2⌋ + 1 := Int.lt_floor_add_one _
    constructor <;> [linarith; linarith]
  · rw [if_neg h]
    have h1 : q - 1 / 2 ≤ (⌈q - 1 / 2⌉ : ℚ) := Int.le_ceil _
    have h2 : (⌈q - 1 / 2⌉ : ℚ) < q - 1 / 2 + 1 := Int.ceil_lt_add_one _
    constructor <;> [linarith; linarith]

theorem i32sat_eq_self (n : ℤ) (h1 : -(2 ^ 31) ≤ n) (h2 : n ≤ 2 ^ 31 - 1) :
    i32sat n = n := by
  unfold i32sat
  omega

/-- C5 counterexample: with `mult = 1 > 0`, `accel = 0`, `cap = 1/2 > 0`,
`offset = 0`, the curve's value at `speed = offset` is `1/2`, not the
baseline multiplier `1`: `min(accel * 0 + 1, cap) = cap` when `cap < 1`. -/
theorem factor_at_offset_below_one_cap :
    0 < (1 : ℚ) ∧ 0 < (1 / 2 : ℚ) ∧ factor 1 0 (1 / 2) 0 0 ≠ 1 := by
  refine ⟨by norm_num, by norm_num, ?_⟩
  unfold factor
  norm_num

/-- C5 (amended): for positive `mult`, any real `accel`, any `cap ≥ 1` and
any real `offset`, the curve's value at `speed = offset` is exactly the
baseline multiplier `mult`. -/
theorem factor_at_offset_eq_mult (m a c o : ℚ) (hm : 0 < m) (hc : 1 ≤ c) :
    factor m a c o o = m := by
  unfold factor
  rw [if_neg (lt_irrefl o), sub_self, mul_zero, zero_add, min_eq_left hc, mul_one]

/-- Witness for the amended C5 statement at concrete inputs. -/
theorem factor_at_offset_eq_mult_witness : factor 2 3 5 7 7 = 2 :=
  factor_at_offset_eq_mult 2 3 5 7 (by norm_num) (by norm_num)

/-- C6 counterexample: with `mult = 1 > 0`, `accel = -1`, `cap = 2 > 0`,
`offset = 0` and speeds `0 ≤ 1` both at or above the offset, the curve is
strictly decreasing: `factor` at speed `1` is `0`, below its value `1` at
speed `0`.  Monotonicity fails for negative `accel`. -/
theorem factor_not_monotone_neg_accel :
    0 < (1 : ℚ) ∧ 0 < (2 : ℚ) ∧ (0 : ℚ) ≤ 0 ∧ (0 : ℚ) ≤ 1 ∧ (0 : ℚ) ≤ 1 ∧
      ¬ factor 1 (-1) 2 0 0 ≤ factor 1 (-1) 2 0 1 := by
  refine ⟨by norm_num, by norm_num, by norm_num, by norm_num, by norm_num, ?_⟩
  unfold factor
  norm_num

/-- C6 (amended): for positive `mult`, nonnegative `accel`, positive `cap`,
real `offset`, and speeds `offset ≤ s1 ≤ s2`, the curve is non-decreasing
from `s1` to `s2` and never exceeds `mult * cap` at either speed. -/
theorem factor_monotone_and_capped (m a c o s1 s2 : ℚ) (hm : 0 < m) (ha : 0 ≤ a)
    (hc : 0 < c) (h1 : o ≤ s1) (h2 : o ≤ s2) (h12 : s1 ≤ s2) :
    factor m a c o s1 ≤ factor m a c o s2 ∧
      factor m a c o s1 ≤ m * c ∧ factor m a c o s2 ≤ m * c := by
  unfold factor
  rw [if_neg (not_lt.mpr h1), if_neg (not_lt.mpr h2)]
  refine ⟨?_, ?_, ?_⟩
  · refine mul_le_mul_of_nonneg_left (min_le_min ?_ le_rfl) hm.le
    nlinarith
  · exact mul_le_mul_of_nonneg_left (min_le_right _ _) hm.le
  · exact mul_le_mul_of_nonneg_left (min_le_right _ _) hm.le

/-- Witness for the amended C6 statement at concrete inputs. -/
theorem factor_monotone_and_capped_witness :
    factor 2 1 3 5 6 ≤ factor 2 1 3 5 7 ∧
      factor 2 1 3 5 6 ≤ 2 * 3 ∧ factor 2 1 3 5 7 ≤ 2 * 3 :=
  factor_monotone_and_capped 2 1 3 5 6 7 (by norm_num) (by norm_num) (by norm_num)
    (by norm_num) (by norm_num) (by norm_num)

/-- Event timestamp, `timeval` of `src/main.rs` (`tv_sec`, `tv_usec`). -/
structure Timeval where
  sec : ℤ
  usec : ℤ
deriving DecidableEq

/-- Event codes distinguished by the dispatch loop (`src/main.rs` lines
87-127): relative X motion, relative Y motion, the frame terminator
`SYN_REPORT`, and every other code (passed through unchanged). -/
inductive Code where
  | relX
  | relY
  | synReport
  | other (c : ℕ)
deriving DecidableEq

/-- A raw input event: timestamp, code and integer value. -/
structure InputEvent where
  time : Timeval
  code : Code
  value : ℤ
deriving DecidableEq

/-- Status returned by `next_event` (`evdev_rs::ReadStatus`): `success` for
a normal read, `sync` when the source reports sync loss / resync replay. -/
inductive ReadStatus where
  | success
  | sync
deriving DecidableEq

/-- Read mode requested from the source (`evdev_rs::ReadFlag`, without the
always-present `BLOCKING` bit): `normal` or `sync` resynchronization. -/
inductive ReadFlag where
  | normal
  | sync
deriving DecidableEq

/-- One result of `source.next_event` (`src/main.rs` line 75): a status and
the event read. -/
structure ReadResult where
  status : ReadStatus
  event : InputEvent
deriving DecidableEq

/-- The dispatch loop's mutable state (`src/main.rs` lines 67-73): pending
per-frame motion `x`, `y`; fractional carries `xAccum`, `yAccum`; the last
terminator timestamp `frameLastSec`/`frameLastUs`; and the sync flag. -/
structure LoopState where
  x : ℚ
  y : ℚ
  xAccum : ℚ
  yAccum : ℚ
  frameLastSec : ℤ
  frameLastUs : ℤ
  syncFlag : ReadFlag
deriving DecidableEq

/-- Initial loop state (`src/main.rs` lines 67-73): everything zero, sync
flag normal. -/
def initState : LoopState :=
  { x := 0, y := 0, xAccum := 0, yAccum := 0,
    frameLastSec := 0, frameLastUs := 0, syncFlag := ReadFlag.normal }

/-- Read mode used for the next `next_event` call (`src/main.rs` line 75):
exactly the current sync flag (the `BLOCKING` bit is always or-ed in). -/
def readMode (s : LoopState) : ReadFlag :=
  s.syncFlag

/-- Elapsed milliseconds between a terminator timestamp `t` and the stored
last-terminator timestamp (`src/main.rs` lines 91-92):
`(t.sec - frameLastSec) * 1000 + (t.usec - frameLastUs) / 1000`. -/
def elapsedAt (s : LoopState) (t : Timeval) : ℚ :=
  ((t.sec : ℚ) - (s.frameLastSec : ℚ)) * 1000 + ((t.usec : ℚ) - (s.frameLastUs : ℚ)) / 1000

/-- Scaled axis values computed at a frame terminator (`src/main.rs` lines
91-102).  The sensitivity evaluation is abstracted as `sens x y elapsedMs`:
in the program it is `factor(mult, accel, cap, offset, sqrt(x^2+y^2) /
elapsedMs)`, whose square root is irrational over `ℚ`; `factor` itself is
modelled exactly above and the special-value division path by `scaleAtFP`
below. -/
def frameScaled (sens : ℚ → ℚ → ℚ → ℚ) (s : LoopState) (t : Timeval) : ℚ × ℚ :=
  (s.x * sens s.x s.y (elapsedAt s t), s.y * sens s.x s.y (elapsedAt s t))

/-- Result of one loop iteration: the new state, the events written to the
sink in order, and whether the sync-loss warning was printed. -/
structure StepResult where
  state : LoopState
  out : List InputEvent
  warned : Bool
deriving DecidableEq

/-- One iteration of the dispatch loop on a successful read (`src/main.rs`
lines 74-128).  A sync-status read prints a warning, sets the sync flag and
drops the event; otherwise the flag is cleared and the event dispatched:
`REL_X`/`REL_Y` set the pending axis value to `event.value + carry`;
`SYN_REPORT` scales, rounds (ties away from zero, saturated to `i32`),
stores the new carries, emits the two synthetic motion events and the
terminator, resets the pending motion and updates the frame clock; any
other event is passed through unchanged. -/
def step (sens : ℚ → ℚ → ℚ → ℚ) (s : LoopState) (r : ReadResult) : StepResult :=
  match r.status with
  | ReadStatus.sync =>
    { state := { s with syncFlag := ReadFlag.sync }, out := [], warned := true }
  | ReadStatus.success =>
    let s1 : LoopState := { s with syncFlag := ReadFlag.normal }
    match r.event.code with
    | Code.relX =>
        { state := { s1 with x := (r.event.value : ℚ) + s1.xAccum }, out := [], warned := false }
    | Code.relY =>
        { state := { s1 with y := (r.event.value : ℚ) + s1.yAccum }, out := [], warned := false }
    | Code.synReport =>
        let t := r.event.time
        let p := frameScaled sens s1 t
        let xr := i32sat (roundAway p.1)
        let yr := i32sat (roundAway p.2)
        { state := { x := 0, y := 0, xAccum := p.1 - xr, yAccum := p.2 - yr,
                     frameLastSec := t.sec, frameLastUs := t.usec,
                     syncFlag := ReadFlag.normal },
          out := [ { time := t, code := Code.relX, value := xr },
                   { time := t, code := Code.relY, value := yr },
                   r.event ],
          warned := false }
    | Code.other _ =>
        { state := s1, out := [r.event], warned := false }

/-- State after processing a list of reads in order. -/
def runState (sens : ℚ → ℚ → ℚ → ℚ) (s : LoopState) : List ReadResult → LoopState
  | [] => s
  | r :: rs => runState sens (step sens s r).state rs

/-- Concatenated sink output of processing a list of reads in order. -/
def runOut (sens : ℚ → ℚ → ℚ → ℚ) (s : LoopState) : List ReadResult → List InputEvent
  | [] => []
  | r :: rs => (step sens s r).out ++ runOut sens (step sens s r).state rs

/-- Whether the rounded value fits the `i32` range, i.e. the saturating
cast of `src/main.rs` lines 104-105 is the identity. -/
def inI32 (n : ℤ) : Bool :=
  decide (-(2 ^ 31) ≤ n) && decide (n ≤ 2 ^ 31 - 1)

/-- Whether one read avoids `i32` saturation: only a successful
`SYN_REPORT` read can saturate, when a rounded scaled axis value leaves
the `i32` range. -/
def stepSatOk (sens : ℚ → ℚ → ℚ → ℚ) (s : LoopState) (r : ReadResult) : Bool :=
  match r.status with
  | ReadStatus.sync => true
  | ReadStatus.success =>
    match r.event.code with
    | Code.synReport =>
        inI32 (roundAway (frameScaled sens s r.event.time).1) &&
          inI32 (roundAway (frameScaled sens s r.event.time).2)
    | _ => true

/-- Whether a whole run avoids `i32` saturation at every frame. -/
def satFree (sens : ℚ → ℚ → ℚ → ℚ) (s : LoopState) : List ReadResult → Bool
  | [] => true
  | r :: rs => stepSatOk sens s r && satFree sens (step sens s r).state rs

/-- Whether an event is a frame terminator. -/
def isTerm (e : InputEvent) : Bool :=
  decide (e.code = Code.synReport)

/-- Whether a read is a successfully read frame terminator. -/
def isTermRead (r : ReadResult) : Bool :=
  decide (r.status = ReadStatus.success) && isTerm r.event

theorem frameScaled_flag (sens : ℚ → ℚ → ℚ → ℚ) (s : LoopState) (f : ReadFlag) (t : Timeval) :
    frameScaled sens { s with syncFlag := f } t = frameScaled sens s t := rfl

/-- C8: a successfully read axis event sets the pending value for its axis
to `event.value + carry`, leaves the other axis, both carries and the frame
clock unchanged, and overwrites (rather than sums with) whatever an earlier
same-axis event in the same frame had stored. -/
theorem axis_event_sets_accumulator (sens : ℚ → ℚ → ℚ → ℚ) (s : LoopState)
    (t t' : Timeval) (v v1 v2 : ℤ) :
    ((step sens s ⟨ReadStatus.success, ⟨t, Code.relX, v⟩⟩).state.x = (v : ℚ) + s.xAccum ∧
      (step sens s ⟨ReadStatus.success, ⟨t, Code.relX, v⟩⟩).state.y = s.y ∧
      (step sens s ⟨ReadStatus.success, ⟨t, Code.relX, v⟩⟩).state.xAccum = s.xAccum ∧
      (step sens s ⟨ReadStatus.success, ⟨t, Code.relX, v⟩⟩).state.yAccum = s.yAccum ∧
      (step sens s ⟨ReadStatus.success, ⟨t, Code.relX, v⟩⟩).state.frameLastSec = s.frameLastSec ∧
      (step sens s ⟨ReadStatus.success, ⟨t, Code.relX, v⟩⟩).state.frameLastUs = s.frameLastUs) ∧
    ((step sens s ⟨ReadStatus.success, ⟨t, Code.relY, v⟩⟩).state.y = (v : ℚ) + s.yAccum ∧
      (step sens s ⟨ReadStatus.success, ⟨t, Code.relY, v⟩⟩).state.x = s.x ∧
      (step sens s ⟨ReadStatus.success, ⟨t, Code.relY, v⟩⟩).state.xAccum = s.xAccum ∧
      (step sens s ⟨ReadStatus.success, ⟨t, Code.relY, v⟩⟩).state.yAccum = s.yAccum ∧
      (step sens s ⟨ReadStatus.success, ⟨t, Code.relY, v⟩⟩).state.frameLastSec = s.frameLastSec ∧
      (step sens s ⟨ReadStatus.success, ⟨t, Code.relY, v⟩⟩).state.frameLastUs = s.frameLastUs) ∧
    (step sens (step sens s ⟨ReadStatus.success, ⟨t, Code.relX, v1⟩⟩).state
        ⟨ReadStatus.success, ⟨t', Code.relX, v2⟩⟩).state =
      (step sens s ⟨ReadStatus.success, ⟨t', Code.relX, v2⟩⟩).state ∧
    (step sens (step sens s ⟨ReadStatus.success, ⟨t, Code.relY, v1⟩⟩).state
        ⟨ReadStatus.success, ⟨t', Code.relY, v2⟩⟩).state =
      (step sens s ⟨ReadStatus.success, ⟨t', Code.relY, v2⟩⟩).state :=
  ⟨⟨rfl, rfl, rfl, rfl, rfl, rfl⟩, ⟨rfl, rfl, rfl, rfl, rfl, rfl⟩, rfl, rfl⟩

/-- C7: a successfully read frame terminator emits exactly three events, in
order: the synthetic X motion event with the rounded scaled value and the
terminator's timestamp, the analogous Y event, then the terminator itself
unchanged; and over any run the terminators appear in the output exactly in
input order. -/
theorem terminator_emits_three_in_order (sens : ℚ → ℚ → ℚ → ℚ) (s : LoopState)
    (t : Timeval) (w : ℤ) :
    (step sens s ⟨ReadStatus.success, ⟨t, Code.synReport, w⟩⟩).out =
      [⟨t, Code.relX, i32sat (roundAway (frameScaled sens s t).1)⟩,
       ⟨t, Code.relY, i32sat (roundAway (frameScaled sens s t).2)⟩,
       ⟨t, Code.synReport, w⟩] ∧
    ∀ rs : List ReadResult,
      (runOut sens s rs).filter isTerm = (rs.filter isTermRead).map ReadResult.event := by
  constructor
  · rfl
  · intro rs
    induction rs generalizing s with
    | nil => rfl
    | cons r rs ih =>
      rcases r with ⟨st, ⟨te, ce, ve⟩⟩
      cases st <;> cases ce <;>
        simp [runOut, step, isTerm, isTermRead, List.filter_append, ih]

theorem runState_syncFlag_sync (sens : ℚ → ℚ → ℚ → ℚ) (rs : List ReadResult) :
    ∀ s : LoopState, s.syncFlag = ReadFlag.sync →
      (∀ r ∈ rs, r.status = ReadStatus.sync) →
      (runState sens s rs).syncFlag = ReadFlag.sync := by
  induction rs with
  | nil => intro s hs _; exact hs
  | cons r rs ih =>
    intro s _ h
    have hr : r.status = ReadStatus.sync := h r (List.mem_cons_self r rs)
    have hstep : (step sens s r).state.syncFlag = ReadFlag.sync := by
      simp [step, hr]
    exact ih _ hstep (fun r' hr' => h r' (List.mem_cons_of_mem _ hr'))

/-- C9: a sync-loss read emits the warning, leaves the accumulator, carries
and frame clock untouched, writes nothing to the sink, and switches the
read mode to resynchronization; the mode stays in resynchronization across
any further sync-status reads, and any successfully read event switches the
mode back to normal. -/
theorem sync_loss_handling (sens : ℚ → ℚ → ℚ → ℚ) (s : LoopState) (ev ev' : InputEvent) :
    (step sens s ⟨ReadStatus.sync, ev⟩).warned = true ∧
    (step sens s ⟨ReadStatus.sync, ev⟩).state.x = s.x ∧
    (step sens s ⟨ReadStatus.sync, ev⟩).state.y = s.y ∧
    (step sens s ⟨ReadStatus.sync, ev⟩).state.xAccum = s.xAccum ∧
    (step sens s ⟨ReadStatus.sync, ev⟩).state.yAccum = s.yAccum ∧
    (step sens s ⟨ReadStatus.sync, ev⟩).state.frameLastSec = s.frameLastSec ∧
    (step sens s ⟨ReadStatus.sync, ev⟩).state.frameLastUs = s.frameLastUs ∧
    (step sens s ⟨ReadStatus.sync, ev⟩).out = [] ∧
    readMode (step sens s ⟨ReadStatus.sync, ev⟩).state = ReadFlag.sync ∧
    (∀ rs : List ReadResult, (∀ r ∈ rs, r.status = ReadStatus.sync) →
      readMode (runState sens (step sens s ⟨ReadStatus.sync, ev⟩).state rs) = ReadFlag.sync) ∧
    readMode (step sens s ⟨ReadStatus.success, ev'⟩).state = ReadFlag.normal := by
  refine ⟨rfl, rfl, rfl, rfl, rfl, rfl, rfl, rfl, rfl, ?_, ?_⟩
  · intro rs h
    exact runState_syncFlag_sync sens rs _ rfl h
  · rcases ev' with ⟨t', c', v'⟩
    cases c' <;> rfl

/-- Concrete sensitivity evaluation used by witnesses and counterexamples:
the program run with `-m 0.5 -a 0 -c 2 -o 0`, whose curve value is `1/2`
at every speed (so the abstracted speed argument is irrelevant, and every
`f64` step of that run is exact). -/
def demoSens : ℚ → ℚ → ℚ → ℚ := fun _ _ _ => factor (1 / 2) 0 2 0 0

theorem demoSens_matches_factor (x y dm speed : ℚ) :
    demoSens x y dm = factor (1 / 2) 0 2 0 speed := by
  unfold demoSens factor
  by_cases h : speed < 0 <;> simp [h]

/-- Witness for C9 at concrete inputs: after a sync-loss read and one more
sync-status read, the read mode is still resynchronization. -/
theorem sync_loss_handling_witness :
    readMode (runState demoSens
        (step demoSens initState ⟨ReadStatus.sync, ⟨⟨0, 0⟩, Code.other 4, 0⟩⟩).state
        [⟨ReadStatus.sync, ⟨⟨0, 0⟩, Code.other 5, 0⟩⟩]) = ReadFlag.sync :=
  (sync_loss_handling demoSens initState ⟨⟨0, 0⟩, Code.other 4, 0⟩
      ⟨⟨0, 0⟩, Code.other 4, 0⟩).2.2.2.2.2.2.2.2.2.1
    [⟨ReadStatus.sync, ⟨⟨0, 0⟩, Code.other 5, 0⟩⟩]
    (by intro r hr; rw [List.mem_singleton] at hr; subst hr; rfl)

/-- C2: for a single frame (an X event of value `vx`, a Y event of value
`vy`, then a terminator) starting from incoming carries `s0.xAccum`,
`s0.yAccum`, the emitted rounded X value plus the new X carry equals
`scale * (vx + cx)` exactly, and symmetrically for Y, where `scale` is the
sensitivity evaluated on this frame.  This holds even when the emitted
value saturates the `i32` range, since the carry absorbs the difference. -/
theorem frame_conservation (sens : ℚ → ℚ → ℚ → ℚ) (s0 : LoopState)
    (vx vy w : ℤ) (tx ty t : Timeval) :
    ∃ xr yr : ℤ,
      runOut sens s0
          [⟨ReadStatus.success, ⟨tx, Code.relX, vx⟩⟩,
           ⟨ReadStatus.success, ⟨ty, Code.relY, vy⟩⟩,
           ⟨ReadStatus.success, ⟨t, Code.synReport, w⟩⟩] =
        [⟨t, Code.relX, xr⟩, ⟨t, Code.relY, yr⟩, ⟨t, Code.synReport, w⟩] ∧
      (xr : ℚ) +
          (runState sens s0
            [⟨ReadStatus.success, ⟨tx, Code.relX, vx⟩⟩,
             ⟨ReadStatus.success, ⟨ty, Code.relY, vy⟩⟩,
             ⟨ReadStatus.success, ⟨t, Code.synReport, w⟩⟩]).xAccum =
        sens ((vx : ℚ) + s0.xAccum) ((vy : ℚ) + s0.yAccum) (elapsedAt s0 t) *
          ((vx : ℚ) + s0.xAccum) ∧
      (yr : ℚ) +
          (runState sens s0
            [⟨ReadStatus.success, ⟨tx, Code.relX, vx⟩⟩,
             ⟨ReadStatus.success, ⟨ty, Code.relY, vy⟩⟩,
             ⟨ReadStatus.success, ⟨t, Code.synReport, w⟩⟩]).yAccum =
        sens ((vx : ℚ) + s0.xAccum) ((vy : ℚ) + s0.yAccum) (elapsedAt s0 t) *
          ((vy : ℚ) + s0.yAccum) := by
  refine ⟨i32sat (roundAway (((vx : ℚ) + s0.xAccum) *
      sens ((vx : ℚ) + s0.xAccum) ((vy : ℚ) + s0.yAccum) (elapsedAt s0 t))),
    i32sat (roundAway (((vy : ℚ) + s0.yAccum) *
      sens ((vx : ℚ) + s0.xAccum) ((vy : ℚ) + s0.yAccum) (elapsedAt s0 t))), rfl, ?_, ?_⟩
  · show (i32sat (roundAway (((vx : ℚ) + s0.xAccum) *
          sens ((vx : ℚ) + s0.xAccum) ((vy : ℚ) + s0.yAccum) (elapsedAt s0 t))) : ℚ) +
        (((vx : ℚ) + s0.xAccum) *
            sens ((vx : ℚ) + s0.xAccum) ((vy : ℚ) + s0.yAccum) (elapsedAt s0 t) -
          (i32sat (roundAway (((vx : ℚ) + s0.xAccum) *
            sens ((vx : ℚ) + s0.xAccum) ((vy : ℚ) + s0.yAccum) (elapsedAt s0 t))) : ℚ)) =
        sens ((vx : ℚ) + s0.xAccum) ((vy : ℚ) + s0.yAccum) (elapsedAt s0 t) *
          ((vx : ℚ) + s0.xAccum)
    ring
  · show (i32sat (roundAway (((vy : ℚ) + s0.yAccum) *
          sens ((vx : ℚ) + s0.xAccum) ((vy : ℚ) + s0.yAccum) (elapsedAt s0 t))) : ℚ) +
        (((vy : ℚ) + s0.yAccum) *
            sens ((vx : ℚ) + s0.xAccum) ((vy : ℚ) + s0.yAccum) (elapsedAt s0 t) -
          (i32sat (roundAway (((vy : ℚ) + s0.yAccum) *
            sens ((vx : ℚ) + s0.xAccum) ((vy : ℚ) + s0.yAccum) (elapsedAt s0 t))) : ℚ)) =
        sens ((vx : ℚ) + s0.xAccum) ((vy : ℚ) + s0.yAccum) (elapsedAt s0 t) *
          ((vy : ℚ) + s0.yAccum)
    ring

theorem step_carry_bounds (sens : ℚ → ℚ → ℚ → ℚ) (s : LoopState) (r : ReadResult)
    (hok : stepSatOk sens s r = true)
    (hs : -(1 / 2) ≤ s.xAccum ∧ s.xAccum ≤ 1 / 2 ∧ -(1 / 2) ≤ s.yAccum ∧ s.yAccum ≤ 1 / 2) :
    -(1 / 2) ≤ (step sens s r).state.xAccum ∧ (step sens s r).state.xAccum ≤ 1 / 2 ∧
      -(1 / 2) ≤ (step sens s r).state.yAccum ∧ (step sens s r).state.yAccum ≤ 1 / 2 := by
  rcases r with ⟨st, ⟨te, ce, ve⟩⟩
  cases st with
  | sync => exact hs
  | success =>
    cases ce with
    | relX => exact hs
    | relY => exact hs
    | other c => exact hs
    | synReport =>
      have hok' : (inI32 (roundAway (frameScaled sens s te).1) &&
          inI32 (roundAway (frameScaled sens s te).2)) = true := hok
      simp only [inI32, Bool.and_eq_true, decide_eq_true_eq] at hok'
      have e1 : i32sat (roundAway (frameScaled sens s te).1) =
          roundAway (frameScaled sens s te).1 :=
        i32sat_eq_self _ hok'.1.1 hok'.1.2
      have e2 : i32sat (roundAway (frameScaled sens s te).2) =
          roundAway (frameScaled sens s te).2 :=
        i32sat_eq_self _ hok'.2.1 hok'.2.2
      have b1 := roundAway_sub_bounds (frameScaled sens s te).1
      have b2 := roundAway_sub_bounds (frameScaled sens s te).2
      refine ⟨?_, ?_, ?_, ?_⟩
      · show -(1 / 2) ≤ (frameScaled sens s te).1 -
            (i32sat (roundAway (frameScaled sens s te).1) : ℚ)
        rw [e1]; exact b1.1
      · show (frameScaled sens s te).1 -
            (i32sat (roundAway (frameScaled sens s te).1) : ℚ) ≤ 1 / 2
        rw [e1]; exact b1.2
      · show -(1 / 2) ≤ (frameScaled sens s te).2 -
            (i32sat (roundAway (frameScaled sens s te).2) : ℚ)
        rw [e2]; exact b2.1
      · show (frameScaled sens s te).2 -
            (i32sat (roundAway (frameScaled sens s te).2) : ℚ) ≤ 1 / 2
        rw [e2]; exact b2.2

theorem runState_carry_bounds (sens : ℚ → ℚ → ℚ → ℚ) (rs : List ReadResult) :
    ∀ s : LoopState, satFree sens s rs = true →
      (-(1 / 2) ≤ s.xAccum ∧ s.xAccum ≤ 1 / 2 ∧ -(1 / 2) ≤ s.yAccum ∧ s.yAccum ≤ 1 / 2) →
      (-(1 / 2) ≤ (runState sens s rs).xAccum ∧ (runState sens s rs).xAccum ≤ 1 / 2 ∧
        -(1 / 2) ≤ (runState sens s rs).yAccum ∧ (runState sens s rs).yAccum ≤ 1 / 2) := by
  induction rs with
  | nil => intro s _ hs; exact hs
  | cons r rs ih =>
    intro s hf hs
    have hf' : stepSatOk sens s r = true ∧ satFree sens (step sens s r).state rs = true := by
      simpa [satFree, Bool.and_eq_true] using hf
    exact ih _ hf'.2 (step_carry_bounds sens s r hf'.1 hs)

/-- C1 (amended): starting from zero carries, after any finite sequence of
reads in which no frame's rounded axis value saturates the `i32` range,
each carry lies in the closed interval `[-1/2, 1/2]`.  Both endpoints are
attained, since ties round away from zero; the spec's half-open interval
`(-1/2, 1/2]` excludes the reachable carry `-1/2`. -/
theorem carry_bounded_closed_interval (sens : ℚ → ℚ → ℚ → ℚ) (rs : List ReadResult)
    (h : satFree sens initState rs = true) :
    -(1 / 2) ≤ (runState sens initState rs).xAccum ∧
      (runState sens initState rs).xAccum ≤ 1 / 2 ∧
      -(1 / 2) ≤ (runState sens initState rs).yAccum ∧
      (runState sens initState rs).yAccum ≤ 1 / 2 :=
  runState_carry_bounds sens rs initState h (by norm_num [initState])

/-- One-frame trace for the program run `-m 0.5 -a 0 -c 2 -o 0`: an X
motion of 1, then a terminator.  The scaled X value is exactly `0.5`,
which Rust's `f64::round` rounds to 1 (ties away from zero), leaving the
carry `-0.5`. -/
def demoTrace : List ReadResult :=
  [⟨ReadStatus.success, ⟨⟨1, 0⟩, Code.relX, 1⟩⟩,
   ⟨ReadStatus.success, ⟨⟨1, 0⟩, Code.synReport, 0⟩⟩]

/-- Witness for the amended C1 statement on a concrete saturation-free
trace (whose X carry is exactly the endpoint `-1/2`). -/
theorem carry_bounded_closed_interval_witness :
    -(1 / 2) ≤ (runState demoSens initState demoTrace).xAccum ∧
      (runState demoSens initState demoTrace).xAccum ≤ 1 / 2 ∧
      -(1 / 2) ≤ (runState demoSens initState demoTrace).yAccum ∧
      (runState demoSens initState demoTrace).yAccum ≤ 1 / 2 :=
  carry_bounded_closed_interval demoSens demoTrace (by
    norm_num [demoTrace, satFree, stepSatOk, step, frameScaled, elapsedAt, demoSens,
      factor, inI32, roundAway, i32sat, initState])

/-- C1 counterexample: after the single frame of `demoTrace` (starting from
zero carries), the X carry is exactly `-1/2`, which is outside the spec's
half-open interval `(-1/2, 1/2]`. -/
theorem carry_not_in_spec_interval :
    (runState demoSens initState demoTrace).xAccum = -(1 / 2) ∧
      ¬ (-(1 / 2) < (runState demoSens initState demoTrace).xAccum) := by
  have h : (runState demoSens initState demoTrace).xAccum = -(1 / 2) := by
    norm_num [demoTrace, runState, step, frameScaled, elapsedAt, demoSens, factor,
      initState, roundAway, i32sat]
  rw [h]
  norm_num

/-- C3 counterexample: for a first terminator carrying timestamp
`(1 s, 0 µs)`, the elapsed time used by the frame computation is `1000` ms,
not the `0` that treating `last_terminator_time` as the terminator's own
timestamp would give. -/
theorem first_frame_elapsed_nonzero :
    elapsedAt initState ⟨1, 0⟩ = 1000 ∧ (1000 : ℚ) ≠ 0 := by
  constructor
  · norm_num [elapsedAt, initState]
  · norm_num

/-- C3 (amended): the frame clock starts at the zero timestamp
`(0 s, 0 µs)`, so the very first terminator's elapsed time is its own
absolute timestamp in milliseconds — zero only when that timestamp is
itself zero — rather than being treated as zero. -/
theorem first_frame_elapsed_from_epoch (t : Timeval) :
    initState.frameLastSec = 0 ∧ initState.frameLastUs = 0 ∧
      elapsedAt initState t = (t.sec : ℚ) * 1000 + (t.usec : ℚ) / 1000 := by
  refine ⟨rfl, rfl, ?_⟩
  unfold elapsedAt initState
  push_cast
  ring

theorem runState_x_of_no_relX (sens : ℚ → ℚ → ℚ → ℚ) (rs : List ReadResult) :
    ∀ s : LoopState,
      (∀ r ∈ rs, r.status = ReadStatus.success →
        r.event.code ≠ Code.relX ∧ r.event.code ≠ Code.synReport) →
      (runState sens s rs).x = s.x := by
  induction rs with
  | nil => intro s _; rfl
  | cons r rs ih =>
    intro s h
    have hr := h r (List.mem_cons_self r rs)
    have hx : (step sens s r).state.x = s.x := by
      rcases r with ⟨st, ⟨te, ce, ve⟩⟩
      cases st with
      | sync => rfl
      | success =>
        cases ce with
        | relX => exact absurd rfl (hr rfl).1
        | relY => rfl
        | synReport => exact absurd rfl (hr rfl).2
        | other c => rfl
    calc (runState sens (step sens s r).state rs).x
        = (step sens s r).state.x :=
          ih _ (fun r' h' hs => h r' (List.mem_cons_of_mem _ h') hs)
      _ = s.x := hx

theorem runState_y_of_no_relY (sens : ℚ → ℚ → ℚ → ℚ) (rs : List ReadResult) :
    ∀ s : LoopState,
      (∀ r ∈ rs, r.status = ReadStatus.success →
        r.event.code ≠ Code.relY ∧ r.event.code ≠ Code.synReport) →
      (runState sens s rs).y = s.y := by
  induction rs with
  | nil => intro s _; rfl
  | cons r rs ih =>
    intro s h
    have hr := h r (List.mem_cons_self r rs)
    have hy : (step sens s r).state.y = s.y := by
      rcases r with ⟨st, ⟨te, ce, ve⟩⟩
      cases st with
      | sync => rfl
      | success =>
        cases ce with
        | relX => rfl
        | relY => exact absurd rfl (hr rfl).1
        | synReport => exact absurd rfl (hr rfl).2
        | other c => rfl
    calc (runState sens (step sens s r).state rs).y
        = (step sens s r).state.y :=
          ih _ (fun r' h' hs => h r' (List.mem_cons_of_mem _ h') hs)
      _ = s.y := hy

theorem roundAway_zero : roundAway 0 = 0 := by
  norm_num [roundAway]

theorem i32sat_zero : i32sat 0 = 0 := by
  norm_num [i32sat]

theorem step_term_x_zero (sens : ℚ → ℚ → ℚ → ℚ) (s : LoopState) (t : Timeval) (w : ℤ)
    (hx : s.x = 0) :
    (step sens s ⟨ReadStatus.success, ⟨t, Code.synReport, w⟩⟩).out.head? =
        some ⟨t, Code.relX, 0⟩ ∧
      (step sens s ⟨ReadStatus.success, ⟨t, Code.synReport, w⟩⟩).state.xAccum = 0 := by
  have hp : (frameScaled sens { s with syncFlag := ReadFlag.normal } t).1 = 0 := by
    simp [frameScaled, hx]
  constructor
  · show some (⟨t, Code.relX,
        i32sat (roundAway (frameScaled sens { s with syncFlag := ReadFlag.normal } t).1)⟩ :
        InputEvent) = some ⟨t, Code.relX, 0⟩
    rw [hp, roundAway_zero, i32sat_zero]
  · show (frameScaled sens { s with syncFlag := ReadFlag.normal } t).1 -
        ((i32sat (roundAway (frameScaled sens { s with syncFlag := ReadFlag.normal } t).1) : ℤ) :
          ℚ) = 0
    rw [hp, roundAway_zero, i32sat_zero]
    norm_num

theorem step_term_y_zero (sens : ℚ → ℚ → ℚ → ℚ) (s : LoopState) (t : Timeval) (w : ℤ)
    (hy : s.y = 0) :
    (step sens s ⟨ReadStatus.success, ⟨t, Code.synReport, w⟩⟩).out.get? 1 =
        some ⟨t, Code.relY, 0⟩ ∧
      (step sens s ⟨ReadStatus.success, ⟨t, Code.synReport, w⟩⟩).state.yAccum = 0 := by
  have hp : (frameScaled sens { s with syncFlag := ReadFlag.normal } t).2 = 0 := by
    simp [frameScaled, hy]
  constructor
  · show some (⟨t, Code.relY,
        i32sat (roundAway (frameScaled sens { s with syncFlag := ReadFlag.normal } t).2)⟩ :
        InputEvent) = some ⟨t, Code.relY, 0⟩
    rw [hp, roundAway_zero, i32sat_zero]
  · show (frameScaled sens { s with syncFlag := ReadFlag.normal } t).2 -
        ((i32sat (roundAway (frameScaled sens { s with syncFlag := ReadFlag.normal } t).2) : ℤ) :
          ℚ) = 0
    rw [hp, roundAway_zero, i32sat_zero]
    norm_num

/-- C10: if the pending X motion is zero (as it is right after a frame
reset) and no successfully read X event or terminator occurs before the
next terminator, that terminator emits an X value of `round(0 * scale) = 0`
and resets the X carry to `0`, silently discarding any nonzero carry
pending from earlier frames; symmetrically for Y. -/
theorem missing_axis_frame_resets_carry (sens : ℚ → ℚ → ℚ → ℚ) (s : LoopState)
    (t : Timeval) (w : ℤ) :
    (s.x = 0 → ∀ rs : List ReadResult,
      (∀ r ∈ rs, r.status = ReadStatus.success →
        r.event.code ≠ Code.relX ∧ r.event.code ≠ Code.synReport) →
      (step sens (runState sens s rs) ⟨ReadStatus.success, ⟨t, Code.synReport, w⟩⟩).out.head? =
          some ⟨t, Code.relX, 0⟩ ∧
        (step sens (runState sens s rs)
          ⟨ReadStatus.success, ⟨t, Code.synReport, w⟩⟩).state.xAccum = 0) ∧
    (s.y = 0 → ∀ rs : List ReadResult,
      (∀ r ∈ rs, r.status = ReadStatus.success →
        r.event.code ≠ Code.relY ∧ r.event.code ≠ Code.synReport) →
      (step sens (runState sens s rs) ⟨ReadStatus.success, ⟨t, Code.synReport, w⟩⟩).out.get? 1 =
          some ⟨t, Code.relY, 0⟩ ∧
        (step sens (runState sens s rs)
          ⟨ReadStatus.success, ⟨t, Code.synReport, w⟩⟩).state.yAccum = 0) := by
  constructor
  · intro hx rs h
    exact step_term_x_zero sens (runState sens s rs) t w
      (by rw [runState_x_of_no_relX sens rs s h]; exact hx)
  · intro hy rs h
    exact step_term_y_zero sens (runState sens s rs) t w
      (by rw [runState_y_of_no_relY sens rs s h]; exact hy)

/-- State with zero pending motion but nonzero pending carries, used to
exhibit the silent carry discard of C10. -/
def demoCarrySt : LoopState :=
  { x := 0, y := 0, xAccum := 1 / 4, yAccum := -(1 / 4),
    frameLastSec := 0, frameLastUs := 0, syncFlag := ReadFlag.normal }

/-- Witness for C10 at concrete inputs: a frame containing only a Y event
emits X value 0 and resets the pending X carry `1/4` to zero. -/
theorem missing_axis_frame_resets_carry_witness :
    (step demoSens (runState demoSens demoCarrySt
          [⟨ReadStatus.success, ⟨⟨1, 0⟩, Code.relY, 5⟩⟩])
        ⟨ReadStatus.success, ⟨⟨2, 0⟩, Code.synReport, 0⟩⟩).out.head? =
        some ⟨⟨2, 0⟩, Code.relX, 0⟩ ∧
      (step demoSens (runState demoSens demoCarrySt
          [⟨ReadStatus.success, ⟨⟨1, 0⟩, Code.relY, 5⟩⟩])
        ⟨ReadStatus.success, ⟨⟨2, 0⟩, Code.synReport, 0⟩⟩).state.xAccum = 0 :=
  (missing_axis_frame_resets_carry demoSens demoCarrySt ⟨2, 0⟩ 0).1 rfl
    [⟨ReadStatus.success, ⟨⟨1, 0⟩, Code.relY, 5⟩⟩]
    (by
      intro r hr _
      rw [List.mem_singleton] at hr
      subst hr
      exact ⟨by simp, by simp⟩)

/-- IEEE-754 double value as seen by the zero-elapsed-time analysis: a
finite value (exact, rounding and overflow of finite arithmetic are not
modelled), positive infinity, negative infinity, or NaN.  Rust `f64` has
signed zeros; they are collapsed into the single finite zero, which is
sound here because the elapsed-time expression of `src/main.rs` lines
91-92 produces `+0.0` when both differences are zero. -/
inductive FP where
  | fin (q : ℚ)
  | pinf
  | ninf
  | nan
deriving DecidableEq

/-- Whether a floating value is finite (neither infinite nor NaN). -/
def FP.isFinite : FP → Bool
  | FP.fin _ => true
  | _ => false

/-- IEEE-754 addition on special values; exact on finite values. -/
def FP.add : FP → FP → FP
  | FP.nan, _ => FP.nan
  | _, FP.nan => FP.nan
  | FP.fin a, FP.fin b => FP.fin (a + b)
  | FP.fin _, FP.pinf => FP.pinf
  | FP.fin _, FP.ninf => FP.ninf
  | FP.pinf, FP.fin _ => FP.pinf
  | FP.ninf, FP.fin _ => FP.ninf
  | FP.pinf, FP.pinf => FP.pinf
  | FP.ninf, FP.ninf => FP.ninf
  | FP.pinf, FP.ninf => FP.nan
  | FP.ninf, FP.pinf => FP.nan

/-- IEEE-754 subtraction on special values; exact on finite values. -/
def FP.sub : FP → FP → FP
  | FP.nan, _ => FP.nan
  | _, FP.nan => FP.nan
  | FP.fin a, FP.fin b => FP.fin (a - b)
  | FP.fin _, FP.pinf => FP.ninf
  | FP.fin _, FP.ninf => FP.pinf
  | FP.pinf, FP.fin _ => FP.pinf
  | FP.ninf, FP.fin _ => FP.ninf
  | FP.pinf, FP.ninf => FP.pinf
  | FP.ninf, FP.pinf => FP.ninf
  | FP.pinf, FP.pinf => FP.nan
  | FP.ninf, FP.ninf => FP.nan

/-- IEEE-754 multiplication on special values (`0 * ±inf = NaN`); exact on
finite values. -/
def FP.mul : FP → FP → FP
  | FP.nan, _ => FP.nan
  | _, FP.nan => FP.nan
  | FP.fin a, FP.fin b => FP.fin (a * b)
  | FP.fin a, FP.pinf => if a = 0 then FP.nan else if 0 < a then FP.pinf else FP.ninf
  | FP.fin a, FP.ninf => if a = 0 then FP.nan else if 0 < a then FP.ninf else FP.pinf
  | FP.pinf, FP.fin b => if b = 0 then FP.nan else if 0 < b then FP.pinf else FP.ninf
  | FP.ninf, FP.fin b => if b = 0 then FP.nan else if 0 < b then FP.ninf else FP.pinf
  | FP.pinf, FP.pinf => FP.pinf
  | FP.pinf, FP.ninf => FP.ninf
  | FP.ninf, FP.pinf => FP.ninf
  | FP.ninf, FP.ninf => FP.pinf

/-- IEEE-754 division on special values (`x/0` is `NaN` for `x = 0`, a
signed infinity otherwise — the sign-of-zero refinement is not needed
because the model's zero is positive); exact on finite values. -/
def FP.div : FP → FP → FP
  | FP.nan, _ => FP.nan
  | _, FP.nan => FP.nan
  | FP.fin a, FP.fin b =>
      if b = 0 then (if a = 0 then FP.nan else if 0 < a then FP.pinf else FP.ninf)
      else FP.fin (a / b)
  | FP.fin _, FP.pinf => FP.fin 0
  | FP.fin _, FP.ninf => FP.fin 0
  | FP.pinf, FP.fin b => if 0 ≤ b then FP.pinf else FP.ninf
  | FP.ninf, FP.fin b => if 0 ≤ b then FP.ninf else FP.pinf
  | FP.pinf, FP.pinf => FP.nan
  | FP.pinf, FP.ninf => FP.nan
  | FP.ninf, FP.pinf => FP.nan
  | FP.ninf, FP.ninf => FP.nan

/-- Rust `f64::min`: if one argument is NaN the other is returned;
otherwise the numeric minimum with the usual infinity ordering. -/
def FP.fmin : FP → FP → FP
  | FP.nan, b => b
  | a, FP.nan => a
  | FP.ninf, _ => FP.ninf
  | _, FP.ninf => FP.ninf
  | FP.fin a, FP.fin b => FP.fin (min a b)
  | FP.fin a, FP.pinf => FP.fin a
  | FP.pinf, FP.fin b => FP.fin b
  | FP.pinf, FP.pinf => FP.pinf

/-- IEEE-754 `<`: false whenever either argument is NaN. -/
def FP.lt : FP → FP → Bool
  | FP.nan, _ => false
  | _, FP.nan => false
  | FP.fin a, FP.fin b => decide (a < b)
  | FP.fin _, FP.pinf => true
  | FP.fin _, FP.ninf => false
  | FP.pinf, FP.fin _ => false
  | FP.ninf, FP.fin _ => true
  | FP.pinf, FP.pinf => false
  | FP.ninf, FP.ninf => false
  | FP.ninf, FP.pinf => true
  | FP.pinf, FP.ninf => false

/-- Rust `f64::mul_add` (fused multiply-add) on special values: the single
rounding of the fused operation is irrelevant here since finite arithmetic
is modelled exactly, and its special-value behaviour (`0 * inf` invalid,
producing NaN, etc.) agrees with multiply-then-add. -/
def FP.fma (a b c : FP) : FP :=
  FP.add (FP.mul a b) c

/-- Rust `f64::round` on special values: infinities and NaN are returned
unchanged, finite values round to the nearest integer, ties away from
zero. -/
def FP.roundF : FP → FP
  | FP.fin q => FP.fin ((roundAway q : ℤ) : ℚ)
  | FP.pinf => FP.pinf
  | FP.ninf => FP.ninf
  | FP.nan => FP.nan

/-- Truncation toward zero of a rational (the finite case of Rust's
float-to-integer `as` cast). -/
def truncQ (q : ℚ) : ℤ :=
  if 0 ≤ q then ⌊q⌋ else ⌈q⌉

/-- Rust `f64 as i32`: saturating; NaN maps to 0, infinities to the range
ends, finite values truncate toward zero and saturate. -/
def fpToI32 : FP → ℤ
  | FP.fin q => i32sat (truncQ q)
  | FP.pinf => 2 ^ 31 - 1
  | FP.ninf => -(2 ^ 31)
  | FP.nan => 0

/-- The sensitivity curve `factor` (`src/main.rs` lines 9-15) evaluated in
floating-point, special values included. -/
def factorFP (sens_multiplier accel cap offset speed : FP) : FP :=
  if FP.lt speed offset then
    sens_multiplier
  else
    FP.mul sens_multiplier (FP.fmin (FP.fma accel (FP.sub speed offset) (FP.fin 1)) cap)

/-- The scale factor computed at a frame terminator (`src/main.rs` lines
93-100) in floating-point: `factor` applied to `dist / elapsedMs`. -/
def scaleAtFP (sens_multiplier accel cap offset dist elapsedMs : FP) : FP :=
  factorFP sens_multiplier accel cap offset (FP.div dist elapsedMs)

/-- A scaled axis value at a frame terminator (`src/main.rs` lines
101-102) in floating-point. -/
def scaledFP (v scaleF : FP) : FP :=
  FP.mul v scaleF

/-- The emitted rounded axis value (`src/main.rs` lines 104-105) in
floating-point: round, then saturating cast to `i32`. -/
def roundedFP (v scaleF : FP) : ℤ :=
  fpToI32 (FP.roundF (scaledFP v scaleF))

/-- The new fractional carry for an axis (`src/main.rs` lines 106-107) in
floating-point: scaled value minus the emitted integer. -/
def carryFP (v scaleF : FP) : FP :=
  FP.sub (scaledFP v scaleF) (FP.fin ((roundedFP v scaleF : ℤ) : ℚ))

/-- C4 counterexample: with the default cap `+infinity` (`src/main.rs`
line 31, `-c` defaults to `f64::INFINITY`), `mult = 1`, `accel = 1`,
`offset = 0`, a frame with distance 1 and elapsed time 0 gets the scale
factor `+infinity`, and the axis with pending value 1 receives a
non-finite carry: the infinity propagates through `x *= sensitivity` and
`x_accum = x - x_rounded` into the carry. -/
theorem zero_elapsed_default_cap_nonfinite :
    scaleAtFP (FP.fin 1) (FP.fin 1) FP.pinf (FP.fin 0) (FP.fin 1) (FP.fin 0) = FP.pinf ∧
      (carryFP (FP.fin 1)
        (scaleAtFP (FP.fin 1) (FP.fin 1) FP.pinf (FP.fin 0) (FP.fin 1) (FP.fin 0))).isFinite =
        false := by
  have hs : scaleAtFP (FP.fin 1) (FP.fin 1) FP.pinf (FP.fin 0) (FP.fin 1) (FP.fin 0) =
      FP.pinf := by
    norm_num [scaleAtFP, factorFP, FP.div, FP.lt, FP.sub, FP.fma, FP.mul, FP.add, FP.fmin]
  refine ⟨hs, ?_⟩
  rw [hs]
  rfl

/-- C4 (amended): for a frame whose elapsed time is zero, with finite
curve parameters, nonnegative `accel` and finite cap, the scale factor
resolves to exactly `mult * cap` — whether the distance is positive
(speed `+infinity`) or zero (speed NaN, which Rust's `f64::min` discards
in favour of `cap`) — and the scaled value and new carry of an axis with
finite pending value stay finite. -/
theorem zero_elapsed_scale_capped (m a c o d v : ℚ) (ha : 0 ≤ a) (hd : 0 ≤ d) :
    scaleAtFP (FP.fin m) (FP.fin a) (FP.fin c) (FP.fin o) (FP.fin d) (FP.fin 0) =
        FP.fin (m * c) ∧
      (scaledFP (FP.fin v) (FP.fin (m * c))).isFinite = true ∧
      (carryFP (FP.fin v) (FP.fin (m * c))).isFinite = true := by
  refine ⟨?_, rfl, rfl⟩
  rcases eq_or_lt_of_le hd with rfl | hd0
  · simp [scaleAtFP, factorFP, FP.div, FP.lt, FP.sub, FP.fma, FP.mul, FP.add, FP.fmin]
  · rcases eq_or_lt_of_le ha with rfl | ha0
    · simp [scaleAtFP, factorFP, FP.div, FP.lt, FP.sub, FP.fma, FP.mul, FP.add, FP.fmin,
        hd0.ne', hd0]
    · simp [scaleAtFP, factorFP, FP.div, FP.lt, FP.sub, FP.fma, FP.mul, FP.add, FP.fmin,
        hd0.ne', hd0, ha0.ne', ha0]

/-- Witness for the amended C4 statement at concrete inputs. -/
theorem zero_elapsed_scale_capped_witness :
    scaleAtFP (FP.fin 2) (FP.fin 1) (FP.fin 3) (FP.fin 0) (FP.fin 1) (FP.fin 0) =
        FP.fin (2 * 3) ∧
      (scaledFP (FP.fin 1) (FP.fin (2 * 3))).isFinite = true ∧
      (carryFP (FP.fin 1) (FP.fin (2 * 3))).isFinite = true :=
  zero_elapsed_scale_capped 2 1 3 0 1 1 (by norm_num) (by norm_num)
